import Mathlib

/-!
# Verification of the chatbot backend's request-fulfillment and caching layer

This file gives a shallow embedding, in Lean, of the caching core of the
`backend/` sources (`tts.py`, `stt.py`, `app.py`) and proves or refutes the
specified properties of that core.

Modelling conventions:
* Python `dict`s are modelled as insertion-ordered association lists.  Insertion
  of an existing key replaces it in place; `del` removes the first occurrence;
  `min(...)` / `sorted(...)` keep Python's first-minimum / stable-sort
  behaviour (`sorted` is modelled with `List.mergeSort`, which is stable).
* `md5` hex digests are modelled injectively: a key is represented by the exact
  data that the source feeds to `hashlib.md5`.  The claims under study do not
  hinge on md5 collisions, only on which data is hashed.
* Timestamps (`time.time()`) are natural numbers.  `now - ts < EXPIRY` uses
  truncated subtraction, which agrees with the Python float comparison whenever
  `ts ≤ now`, and also treats "future" timestamps as fresh exactly as Python's
  negative difference does.
* Byte strings are `List Nat`; file contents are the payload type of the tier.
* Disk I/O is modelled by an explicit file table plus the sets of paths whose
  `open`-for-read / `open`-for-write raises `IOError`; a failed write leaves
  the file table unchanged.  Exceptions are modelled with `Except`.
* Provider SDK calls (Cartesia / Deepgram) are opaque parameters supplied to
  each operation; the audio-format sniffing in `stt.py` only selects the mime
  hint handed to the provider and is folded into that parameter.
* Python floats that only ever enter comparisons and keys (`speed`,
  `confidence`) are modelled as naturals scaled by 100 (hundredths): 0.5 ↦ 50,
  2.0 ↦ 200, 0.5-threshold ↦ 50.  Every comparison the source performs on them
  is exact on this subdomain, and nothing in the source depends on finer
  precision.
* Python string methods used by the source (`strip`, `lower`, slicing,
  `split()`) are modelled structurally over the character list; the inputs the
  source applies `lower` to are ASCII voice names.
-/

deriving instance DecidableEq for Except

namespace Chatbot

/-- ASCII lower-casing of one character (Python `str.lower` restricted to the
ASCII voice names the source lower-cases). -/
def lowerChar (c : Char) : Char :=
  if 65 ≤ c.toNat ∧ c.toNat ≤ 90 then Char.ofNat (c.toNat + 32) else c

/-- Python `s.lower()`. -/
def pyLower (s : String) : String := String.mk (s.data.map lowerChar)

/-- Python `s.strip()`: drop leading and trailing whitespace. -/
def pyStrip (s : String) : String :=
  String.mk (((s.data.dropWhile Char.isWhitespace).reverse.dropWhile
    Char.isWhitespace).reverse)

/-- Python `s[:n]`. -/
def pyTake (s : String) (n : Nat) : String := String.mk (s.data.take n)

/-- A cache entry: an opaque payload plus the single `timestamp` field that the
source stores next to it (`{'audio_data'/'transcript': …, 'timestamp': …}`). -/
structure Entry (π : Type) where
  payload : π
  timestamp : Nat
deriving DecidableEq, Repr

/-- First-match lookup in an insertion-ordered association list (Python `d[k]`
/ `k in d`; keys are unique in a real `dict`, lookup takes the first match). -/
def alookup {κ π : Type} [DecidableEq κ] : List (κ × π) → κ → Option π
  | [], _ => none
  | (k0, v0) :: rest, k => if k0 = k then some v0 else alookup rest k

/-- Python `d[k] = v`: replace the first pair with key `k` in place, otherwise
append at the end (dicts preserve insertion order). -/
def aput {κ π : Type} [DecidableEq κ] : List (κ × π) → κ → π → List (κ × π)
  | [], k, v => [(k, v)]
  | (k0, v0) :: rest, k, v =>
    if k0 = k then (k, v) :: rest else (k0, v0) :: aput rest k v

/-- Python `del d[k]`: remove the first pair with key `k`. -/
def aerase {κ π : Type} [DecidableEq κ] : List (κ × π) → κ → List (κ × π)
  | [], _ => []
  | (k0, v0) :: rest, k =>
    if k0 = k then rest else (k0, v0) :: aerase rest k

/-- Shared by `tts.py` and `stt.py`: `MEMORY_CACHE_EXPIRY = 3600`. -/
def MEMORY_CACHE_EXPIRY : Nat := 3600

/-- The memory-tier read performed at the top of `text_to_speech`
(tts.py lines 96-110) and `transcribe_audio` (stt.py lines 80-87): look the key
up; if the entry's age is below the expiry window, overwrite its `timestamp`
with `time.time()` and return the payload; a stale entry is left in place and
treated as a miss. -/
def memGet {κ π : Type} [DecidableEq κ] (now : Nat) (c : List (κ × Entry π))
    (k : κ) : Option π × List (κ × Entry π) :=
  match alookup c k with
  | none => (none, c)
  | some e =>
    if now - e.timestamp < MEMORY_CACHE_EXPIRY then
      (some e.payload, aput c k ⟨e.payload, now⟩)
    else (none, c)

/-- Python `min(d.keys(), key=lambda k: d[k]['timestamp'])` together with the
entry it selects: the first pair attaining the minimal timestamp. -/
def oldestPair {κ π : Type} (c : List (κ × Entry π)) : Option (κ × Entry π) :=
  c.foldl
    (fun acc p =>
      match acc with
      | none => some p
      | some q => if p.2.timestamp < q.2.timestamp then some p else some q)
    none

/-- The memory-tier write used on a disk-tier hit (tts.py lines 119-129,
stt.py lines 97-107): insert, then if the map exceeds the size bound remove the
single pair with the oldest timestamp. -/
def memPutEvictOne {κ π : Type} [DecidableEq κ] (size now : Nat)
    (c : List (κ × Entry π)) (k : κ) (v : π) : List (κ × Entry π) :=
  let c' := aput c k ⟨v, now⟩
  if size < c'.length then
    match oldestPair c' with
    | some p => aerase c' p.1
    | none => c'
  else c'

/-- Python `sorted(d.keys(), key=lambda k: d[k]['timestamp'])`: a stable sort
of the pairs by timestamp, keeping only the keys. -/
def keysByAge {κ π : Type} (c : List (κ × Entry π)) : List κ :=
  (c.mergeSort (fun a b => a.2.timestamp ≤ b.2.timestamp)).map Prod.fst

/-- The memory-tier write used after a fresh provider computation
(tts.py lines 232-243, stt.py lines 167-178): insert, then if the map exceeds
the size bound delete the `max(1, len//10)` oldest keys. -/
def memPutEvictTenth {κ π : Type} [DecidableEq κ] (size now : Nat)
    (c : List (κ × Entry π)) (k : κ) (v : π) : List (κ × Entry π) :=
  let c' := aput c k ⟨v, now⟩
  if size < c'.length then
    ((keysByAge c').take (max 1 (c'.length / 10))).foldl aerase c'
  else c'

/-- A disk-tier file: contents plus the filesystem mtime (set when written;
only the background janitors ever look at it). -/
structure DiskFile (σ : Type) where
  data : σ
  mtime : Nat
deriving DecidableEq, Repr

/-- The disk tier of one cache directory, together with the sets of paths whose
`open` raises an `IOError` for reading resp. writing. -/
structure Disk (κ σ : Type) where
  files : List (κ × DiskFile σ)
  readFails : List κ
  writeFails : List κ
deriving DecidableEq, Repr

/-- `os.path.exists(cache_path)`. -/
def Disk.isCached {κ σ : Type} [DecidableEq κ] (d : Disk κ σ) (k : κ) : Bool :=
  (alookup d.files k).isSome

/-- `open(cache_path).read()`; raises when the path is marked as failing. -/
def Disk.readFile {κ σ : Type} [DecidableEq κ] (d : Disk κ σ) (k : κ) :
    Except Unit (DiskFile σ) :=
  if k ∈ d.readFails then .error ()
  else
    match alookup d.files k with
    | some f => .ok f
    | none => .error ()

/-- `open(cache_path, "w").write(data)`; raises when the path is marked as
failing, in which case the file table is unchanged. -/
def Disk.writeFile {κ σ : Type} [DecidableEq κ] (d : Disk κ σ) (k : κ) (v : σ)
    (now : Nat) : Except Unit (Disk κ σ) :=
  if k ∈ d.writeFails then .error ()
  else .ok { d with files := aput d.files k ⟨v, now⟩ }

namespace TTS

/-- tts.py: `MEMORY_CACHE_SIZE = 100`. -/
def MEMORY_CACHE_SIZE : Nat := 100

/-- The data fed to `hashlib.md5` for the coarse memory-cache key
(tts.py line 86): `f"{text[:100]}:{voice}:{speed}"`.  `speed` is in
hundredths. -/
structure MemKey where
  text100 : String
  voice : String
  speed : Nat
deriving DecidableEq, Repr

/-- The data fed to `hashlib.md5` for the full file-cache key
(tts.py line 89): `f"{text}:{voice}:{speed}"`; it names the `.wav` path. -/
structure FullKey where
  text : String
  voice : String
  speed : Nat
deriving DecidableEq, Repr

/-- tts.py line 86. -/
def memory_cache_key (text voice : String) (speed : Nat) : MemKey :=
  ⟨pyTake text 100, voice, speed⟩

/-- tts.py line 89. -/
def full_cache_key (text voice : String) (speed : Nat) : FullKey :=
  ⟨text, voice, speed⟩

/-- tts.py lines 42-46. -/
def VOICE_MAPPING : List (String × String) :=
  [("default", "c99d36f3-5ffd-4253-803a-535c1bc9c306"),
   ("male", "ab109683-f31f-40d7-b264-9ec3e26fb85e"),
   ("female", "bf0a246a-8642-498a-9950-80c35e9276b5")]

/-- tts.py lines 48-55, with the float keys in hundredths. -/
def SPEED_MAPPING : List (Nat × String) :=
  [(50, "slowest"), (75, "slower"), (100, "normal"),
   (125, "faster"), (150, "fast"), (200, "fastest")]

/-- tts.py line 56: the sorted speed keys. -/
def SPEED_VALUES : List Nat := [50, 75, 100, 125, 150, 200]

/-- `abs(x - speed)` on the hundredths scale. -/
def natDist (a b : Nat) : Nat := max a b - min a b

/-- tts.py line 144: `min(SPEED_VALUES, key=lambda x: abs(x - speed))`, the
first value attaining the minimal distance. -/
def closest_speed (speed : Nat) : Nat :=
  (SPEED_VALUES.foldl
    (fun acc x =>
      match acc with
      | none => some x
      | some y => if natDist x speed < natDist y speed then some x else some y)
    none).getD 100

/-- tts.py line 141: `VOICE_MAPPING.get(voice.lower(), VOICE_MAPPING["default"])`. -/
def selected_voice_id (voice : String) : String :=
  match alookup VOICE_MAPPING (pyLower voice) with
  | some v => v
  | none => "c99d36f3-5ffd-4253-803a-535c1bc9c306"

/-- The mutable state touched by `text_to_speech`: the in-memory cache `dict`
and the `tts_cache/` directory. -/
structure State where
  mem : List (MemKey × Entry (List Nat))
  disk : Disk FullKey (List Nat)
deriving DecidableEq, Repr

/-- The distinct exceptions that can escape `text_to_speech` (all are re-raised
by the outer handler at tts.py lines 251-253). -/
inductive Err
  | validation
  | providerFail
  | invalidAudio
  | cacheIOFailure
deriving DecidableEq, Repr

/-- The non-streaming path of `text_to_speech` (tts.py lines 59-253,
`streaming=False`).  `provider` models `client.tts.bytes`, taking the
transcript, the selected voice id and the speed label; the model takes the
provider to return `bytes` (the generator-flattening branch at lines 205-219
concatenates chunks into the same value).  The returned `Bool` records whether
the provider was invoked. -/
def text_to_speech (now : Nat)
    (provider : String → String → String → Except Unit (List Nat))
    (st : State) (text voice : String) (speed : Nat) :
    Except Err (List Nat) × State × Bool :=
  if pyStrip text = "" then (.error .validation, st, false)
  else if (alookup VOICE_MAPPING (pyLower voice)).isNone then
    (.error .validation, st, false)
  else if speed < 50 ∨ 200 < speed then (.error .validation, st, false)
  else
    let mk := memory_cache_key text voice speed
    let fk := full_cache_key text voice speed
    match memGet now st.mem mk with
    | (some data, mem1) => (.ok data, { st with mem := mem1 }, false)
    | (none, _) =>
      if st.disk.isCached fk then
        match st.disk.readFile fk with
        | .error _ => (.error .cacheIOFailure, st, false)
        | .ok f =>
          (.ok f.data,
           { st with mem := memPutEvictOne MEMORY_CACHE_SIZE now st.mem mk f.data },
           false)
      else
        match provider text (selected_voice_id voice)
            ((alookup SPEED_MAPPING (closest_speed speed)).getD "normal") with
        | .error _ => (.error .providerFail, st, true)
        | .ok audio_data =>
          if audio_data = [] ∨ audio_data.length < 100 then
            (.error .invalidAudio, st, true)
          else
            match st.disk.writeFile fk audio_data now with
            | .error _ => (.error .cacheIOFailure, st, true)
            | .ok disk1 =>
              (.ok audio_data,
               ⟨memPutEvictTenth MEMORY_CACHE_SIZE now st.mem mk audio_data, disk1⟩,
               true)

/-- A provider chunk stream (`client.tts.stream`): the chunks it yields before
it either is exhausted (`ok = true`) or raises (`ok = false`). -/
structure Producer where
  chunks : List (List Nat)
  ok : Bool
deriving DecidableEq, Repr

/-- The deferred cache write scheduled after a drained stream
(tts.py lines 171-186): join the chunks; if nonempty and at least 100 bytes,
write the `.wav` file and insert into the memory cache — with no eviction
check.  An `IOError` inside the background task is swallowed by the executor
and leaves the state unchanged. -/
def save_to_cache (now : Nat) (chunks : List (List Nat)) (fk : FullKey)
    (mk : MemKey) (st : State) : State :=
  let audio_data := chunks.flatten
  if audio_data ≠ [] ∧ 100 ≤ audio_data.length then
    match st.disk.writeFile fk audio_data now with
    | .error _ => st
    | .ok disk1 => ⟨aput st.mem mk ⟨audio_data, now⟩, disk1⟩
  else st

/-- Outcome of draining `buffered_stream`: the chunks delivered to the client,
whether the client sequence ended in the producer's failure, and the state
after the (possible) deferred cache write. -/
structure StreamResult where
  delivered : List (List Nat)
  failed : Bool
  final : State
deriving DecidableEq, Repr

/-- tts.py lines 165-188: every producer chunk is appended to the buffer and
yielded to the client in order; only after the producer is exhausted is
`save_to_cache` submitted.  If the producer raises partway, the generator
propagates the failure at that point and the save is never scheduled. -/
def buffered_stream (now : Nat) (p : Producer) (fk : FullKey) (mk : MemKey)
    (st : State) : StreamResult :=
  if p.ok then ⟨p.chunks, false, save_to_cache now p.chunks fk mk st⟩
  else ⟨p.chunks, true, st⟩

end TTS

namespace STT

/-- stt.py: `MEMORY_CACHE_SIZE = 200`. -/
def MEMORY_CACHE_SIZE : Nat := 200

/-- stt.py lines 30-52, under the injective-md5 convention: the fingerprint is
the exact byte string handed to `hashlib.md5`.  Above 10000 bytes that is the
join of the sampled windows `audio_data[i:i+20]` for `i` in
`range(0, len, max(1, len//20))` with `i + 20 < len`; otherwise the whole
payload.  (The `except` fallback at lines 49-52 is unreachable in this pure
model.) -/
def get_audio_fingerprint (audio : List Nat) : List Nat :=
  if 10000 < audio.length then
    let chunk_size := max 1 (audio.length / 20)
    (((List.range ((audio.length + chunk_size - 1) / chunk_size)).map
        (· * chunk_size)).filter (fun i => i + 20 < audio.length)).foldr
      (fun i acc => (audio.drop i).take 20 ++ acc) []
  else audio

/-- stt.py line 77: the full-payload hash naming the `.txt` disk file. -/
def audio_hash (audio : List Nat) : List Nat := audio

/-- stt.py line 68. -/
def NO_SPEECH_SENTINEL : String :=
  "No speech detected, please try again with audio"

/-- stt.py line 71. -/
def TOO_SHORT_SENTINEL : String :=
  "Audio too short, please speak for longer"

/-- stt.py line 157. -/
def UNCLEAR_SENTINEL : String :=
  "Speech unclear, please try again speaking more clearly"

/-- stt.py line 160. -/
def PARSE_FAIL_SENTINEL : String :=
  "Could not transcribe audio, please try again"

/-- Python `transcript.split()`: split on whitespace runs, dropping empty
pieces. -/
def splitWords (s : String) : List String :=
  let r := s.data.foldr
    (fun c acc =>
      if c.isWhitespace then
        match acc.1 with
        | [] => ([], acc.2)
        | w => ([], String.mk w :: acc.2)
      else (c :: acc.1, acc.2))
    (([] : List Char), ([] : List String))
  match r.1 with
  | [] => r.2
  | w => String.mk w :: r.2

/-- The Deepgram response as far as `transcribe_audio` reads it:
`some (transcript, confidence)` when the
`results.channels[0].alternatives[0]` path exists (`confidence` defaulting to
0 and scaled to hundredths), `none` when extracting it raises
`KeyError`/`IndexError`. -/
structure DgResp where
  parsed : Option (String × Nat)
deriving DecidableEq

/-- The mutable state touched by `transcribe_audio`: the memory cache keyed by
fingerprint and the `stt_cache/` directory keyed by full hash. -/
structure State where
  mem : List (List Nat × Entry String)
  disk : Disk (List Nat) String
deriving DecidableEq

/-- Exceptions escaping `transcribe_audio` (all re-raised as a generic
`Exception` by the handler at stt.py lines 185-187; the model keeps their
cause apart). -/
inductive Err
  | providerFail
  | cacheIOFailure
deriving DecidableEq, Repr

/-- stt.py lines 54-187: `transcribe_audio`.  `provider` models
`deepgram.listen.rest.v("1").transcribe_file` (the format detection at lines
113-126 only picks the mime hint passed to it).  The returned `Bool` records
whether the provider was invoked. -/
def transcribe_audio (now : Nat) (provider : Except Unit DgResp) (st : State)
    (audio : List Nat) : Except Err String × State × Bool :=
  if audio = [] then (.ok NO_SPEECH_SENTINEL, st, false)
  else if audio.length < 500 then (.ok TOO_SHORT_SENTINEL, st, false)
  else
    let fp := get_audio_fingerprint audio
    let hash := audio_hash audio
    match memGet now st.mem fp with
    | (some t, mem1) => (.ok t, { st with mem := mem1 }, false)
    | (none, _) =>
      if st.disk.isCached hash then
        match st.disk.readFile hash with
        | .error _ => (.error .cacheIOFailure, st, false)
        | .ok f =>
          (.ok f.data,
           { st with mem := memPutEvictOne MEMORY_CACHE_SIZE now st.mem fp f.data },
           false)
      else
        match provider with
        | .error _ => (.error .providerFail, st, true)
        | .ok resp =>
          let transcript :=
            match resp.parsed with
            | none => PARSE_FAIL_SENTINEL
            | some (t, conf) =>
              if conf < 50 ∧ (splitWords t).length < 2 then UNCLEAR_SENTINEL
              else t
          match st.disk.writeFile hash transcript now with
          | .error _ => (.error .cacheIOFailure, st, true)
          | .ok disk1 =>
            (.ok transcript,
             ⟨memPutEvictTenth MEMORY_CACHE_SIZE now st.mem fp transcript, disk1⟩,
             true)

/-- The transcript value computed from a provider response at
stt.py lines 149-160. -/
def extracted_transcript (r : DgResp) : String :=
  match r.parsed with
  | none => PARSE_FAIL_SENTINEL
  | some (t, conf) =>
    if conf < 50 ∧ (splitWords t).length < 2 then UNCLEAR_SENTINEL else t

end STT

namespace App

/-- The request-body facts `convert_text` branches on (app.py lines 69-90):
whether a JSON body was present, whether `float(data.get('speed', 1.0))`
parses (a non-numeric value raises straight to the outer handler), and the
extracted fields. -/
structure ConvertReq where
  hasData : Bool
  speedParses : Bool
  text : String
  voice : String
  speed : Nat
  streaming : Bool
deriving DecidableEq

/-- The input facts `transcribe` branches on (app.py lines 172-190). -/
structure TranscribeReq where
  hasAudioFile : Bool
  filenameEmpty : Bool
  data : List Nat
deriving DecidableEq

/-- The response class a handler returns with. -/
inductive Resp
  | ok200
  | streamResp
  | err400
  | err500
deriving DecidableEq, Repr

/-- Request entry (app.py line 66 / 168): `active_requests[req_id] = {…}`.
Ids are unique, so membership is all that matters. -/
def enter (active : List String) (reqId : String) : List String :=
  if reqId ∈ active then active else active ++ [reqId]

/-- `del active_requests[req_id]` guarded by `if req_id in active_requests`. -/
def removeReq (active : List String) (reqId : String) : List String :=
  active.erase reqId

/-- app.py lines 62-162, `/api/convert`.  `cacheHit` abstracts the
`response_cache` lookup at lines 108-121; `tts` abstracts the
`executor.submit(text_to_speech, …)` future (`.error` = it raised or timed
out).  Returns the response and the `active_requests` key set after the
handler finishes. -/
def convert_text (req : ConvertReq) (reqId : String) (cacheHit : Bool)
    (tts : Except Unit (List Nat)) (active : List String) :
    Resp × List String :=
  let a := enter active reqId
  if req.hasData = false then (.err400, a)
  else if req.speedParses = false then (.err500, removeReq a reqId)
  else if req.text = "" then (.err400, a)
  else if req.speed < 50 ∨ 200 < req.speed then (.err400, a)
  else if pyLower req.voice ∉ ["default", "male", "female"] then
    (.err400, a)
  else if req.streaming then
    match tts with
    | .ok _ => (.streamResp, a)
    | .error _ => (.err500, a)
  else if cacheHit then (.ok200, a)
  else
    match tts with
    | .error _ => (.err500, a)
    | .ok audio =>
      if audio = [] ∨ audio.length < 100 then (.err500, a)
      else (.ok200, removeReq a reqId)

/-- app.py lines 164-218, `/api/transcribe`.  `stt` abstracts the
`executor.submit(transcribe_audio, …)` future. -/
def transcribe_route (req : TranscribeReq) (reqId : String)
    (stt : Except Unit String) (active : List String) : Resp × List String :=
  let a := enter active reqId
  if req.hasAudioFile = false then (.err400, a)
  else if req.filenameEmpty then (.err400, a)
  else if req.data = [] then (.err400, a)
  else if req.data.length < 1000 then (.ok200, a)
  else
    match stt with
    | .error _ => (.err500, removeReq a reqId)
    | .ok _ => (.ok200, removeReq a reqId)

end App

/-! ## Concrete fixtures used by the counterexample runs -/

/-- A 101-character text: one hundred `a`s followed by `b`. -/
def sampleTextA : String := String.mk (List.replicate 100 'a' ++ ['b'])

/-- A different 101-character text sharing its first 100 characters with
`sampleTextA`. -/
def sampleTextB : String := String.mk (List.replicate 100 'a' ++ ['c'])

/-- A provider that synthesises different audio for the two sample texts. -/
def sampleProvider : String → String → String → Except Unit (List Nat) :=
  fun t _ _ =>
    .ok (if t = sampleTextA then List.replicate 100 1 else List.replicate 100 2)

/-- A memory cache already filled to `MEMORY_CACHE_SIZE = 100` with distinct
keys and timestamps 0..99. -/
def fullMemCache : List (TTS.MemKey × Entry (List Nat)) :=
  (List.range 100).map (fun i => (⟨toString i, "default", 100⟩, ⟨[0], i⟩))

/-! ## Association-list and cache-operation lemmas -/

section AListLemmas

variable {κ π : Type} [DecidableEq κ]

theorem alookup_cons (k0 : κ) (v0 : π) (rest : List (κ × π)) (k : κ) :
    alookup ((k0, v0) :: rest) k =
      if k0 = k then some v0 else alookup rest k := rfl

theorem aput_cons (k0 : κ) (v0 : π) (rest : List (κ × π)) (k : κ) (v : π) :
    aput ((k0, v0) :: rest) k v =
      if k0 = k then (k, v) :: rest else (k0, v0) :: aput rest k v := rfl

theorem aerase_cons (k0 : κ) (v0 : π) (rest : List (κ × π)) (k : κ) :
    aerase ((k0, v0) :: rest) k =
      if k0 = k then rest else (k0, v0) :: aerase rest k := rfl

theorem alookup_aput_self (l : List (κ × π)) (k : κ) (v : π) :
    alookup (aput l k v) k = some v := by
  induction l with
  | nil => simp [aput, alookup]
  | cons p rest ih =>
    obtain ⟨k0, v0⟩ := p
    rw [aput_cons]
    by_cases h : k0 = k
    · rw [if_pos h, alookup_cons, if_pos rfl]
    · rw [if_neg h, alookup_cons, if_neg h, ih]

theorem alookup_aput_ne (l : List (κ × π)) (k k' : κ) (v : π) (h : k' ≠ k) :
    alookup (aput l k v) k' = alookup l k' := by
  have hne : ¬ k = k' := fun hh => h hh.symm
  induction l with
  | nil => simp [aput, alookup, hne]
  | cons p rest ih =>
    obtain ⟨k0, v0⟩ := p
    rw [aput_cons]
    by_cases h0 : k0 = k
    · rw [if_pos h0, alookup_cons, alookup_cons, if_neg hne, h0, if_neg hne]
    · rw [if_neg h0, alookup_cons, alookup_cons]
      by_cases h1 : k0 = k'
      · rw [if_pos h1, if_pos h1]
      · rw [if_neg h1, if_neg h1, ih]

theorem alookup_aerase_ne (l : List (κ × π)) (k k' : κ) (h : k' ≠ k) :
    alookup (aerase l k) k' = alookup l k' := by
  induction l with
  | nil => simp [aerase]
  | cons p rest ih =>
    obtain ⟨k0, v0⟩ := p
    rw [aerase_cons]
    by_cases h0 : k0 = k
    · rw [if_pos h0, alookup_cons, if_neg (h0 ▸ fun hh => h hh.symm)]
    · rw [if_neg h0, alookup_cons, alookup_cons]
      by_cases h1 : k0 = k'
      · rw [if_pos h1, if_pos h1]
      · rw [if_neg h1, if_neg h1, ih]

theorem length_aput (l : List (κ × π)) (k : κ) (v : π) :
    (aput l k v).length =
      if (alookup l k).isSome then l.length else l.length + 1 := by
  induction l with
  | nil => simp [aput, alookup]
  | cons p rest ih =>
    obtain ⟨k0, v0⟩ := p
    rw [aput_cons, alookup_cons]
    by_cases h : k0 = k
    · rw [if_pos h, if_pos h]
      simp
    · rw [if_neg h, if_neg h, List.length_cons, List.length_cons, ih]
      by_cases h1 : (alookup rest k).isSome
      · rw [if_pos h1, if_pos h1]
      · rw [if_neg h1, if_neg h1]

theorem length_aput_le (l : List (κ × π)) (k : κ) (v : π) :
    (aput l k v).length ≤ l.length + 1 := by
  rw [length_aput]
  by_cases h : (alookup l k).isSome
  · rw [if_pos h]
    omega
  · rw [if_neg h]

theorem length_aerase_le (l : List (κ × π)) (k : κ) :
    (aerase l k).length ≤ l.length := by
  induction l with
  | nil => simp [aerase]
  | cons p rest ih =>
    obtain ⟨k0, v0⟩ := p
    rw [aerase_cons]
    by_cases h : k0 = k
    · rw [if_pos h]
      simp
    · rw [if_neg h]
      simp only [List.length_cons]
      omega

theorem length_aerase_of_present (l : List (κ × π)) (k : κ)
    (h : (alookup l k).isSome) : (aerase l k).length + 1 = l.length := by
  induction l with
  | nil => simp [alookup] at h
  | cons p rest ih =>
    obtain ⟨k0, v0⟩ := p
    rw [aerase_cons]
    by_cases h0 : k0 = k
    · rw [if_pos h0, List.length_cons]
    · rw [alookup_cons, if_neg h0] at h
      have := ih h
      rw [if_neg h0, List.length_cons, List.length_cons]
      omega

theorem alookup_isSome_of_mem (l : List (κ × π)) (k : κ) (v : π)
    (h : (k, v) ∈ l) : (alookup l k).isSome := by
  induction l with
  | nil => simp at h
  | cons p rest ih =>
    obtain ⟨k0, v0⟩ := p
    rw [alookup_cons]
    by_cases h0 : k0 = k
    · rw [if_pos h0]
      rfl
    · rw [if_neg h0]
      rcases List.mem_cons.mp h with h1 | h1
      · exact absurd (congrArg Prod.fst h1.symm) h0
      · exact ih h1

theorem mem_aput_of_keys_nodup (l : List (κ × π)) (k : κ) (v : π)
    (hnd : (l.map Prod.fst).Nodup) (p : κ × π) (hp : p ∈ aput l k v) :
    p = (k, v) ∨ (p ∈ l ∧ p.1 ≠ k) := by
  induction l with
  | nil =>
    rw [show aput ([] : List (κ × π)) k v = [(k, v)] from rfl] at hp
    exact Or.inl (List.mem_singleton.mp hp)
  | cons q rest ih =>
    obtain ⟨k0, v0⟩ := q
    simp only [List.map_cons, List.nodup_cons] at hnd
    rw [aput_cons] at hp
    by_cases h0 : k0 = k
    · rw [if_pos h0] at hp
      rcases List.mem_cons.mp hp with h1 | h1
      · exact Or.inl h1
      · right
        refine ⟨List.mem_cons_of_mem _ h1, ?_⟩
        intro hk
        exact hnd.1 (h0 ▸ hk ▸ List.mem_map_of_mem Prod.fst h1)
    · rw [if_neg h0] at hp
      rcases List.mem_cons.mp hp with h1 | h1
      · subst h1
        exact Or.inr ⟨List.mem_cons_self _ _, h0⟩
      · rcases ih hnd.2 h1 with h2 | h2
        · exact Or.inl h2
        · exact Or.inr ⟨List.mem_cons_of_mem _ h2.1, h2.2⟩

theorem keys_nodup_aput (l : List (κ × π)) (k : κ) (v : π)
    (hnd : (l.map Prod.fst).Nodup) : ((aput l k v).map Prod.fst).Nodup := by
  induction l with
  | nil =>
    rw [show aput ([] : List (κ × π)) k v = [(k, v)] from rfl]
    simp
  | cons q rest ih =>
    obtain ⟨k0, v0⟩ := q
    simp only [List.map_cons, List.nodup_cons] at hnd
    rw [aput_cons]
    by_cases h0 : k0 = k
    · rw [if_pos h0]
      simp only [List.map_cons, List.nodup_cons]
      exact ⟨h0 ▸ hnd.1, hnd.2⟩
    · rw [if_neg h0]
      simp only [List.map_cons, List.nodup_cons]
      refine ⟨?_, ih hnd.2⟩
      intro hk
      rcases List.mem_map.mp hk with ⟨p, hp, hpk⟩
      rcases mem_aput_of_keys_nodup rest k v hnd.2 p hp with h1 | h1
      · exact h0 (by rw [h1] at hpk; exact hpk.symm)
      · exact hnd.1 (hpk ▸ List.mem_map_of_mem Prod.fst h1.1)

theorem alookup_foldl_aerase_not_mem (ks : List κ) (c : List (κ × π)) (k : κ)
    (h : k ∉ ks) : alookup (ks.foldl aerase c) k = alookup c k := by
  induction ks generalizing c with
  | nil => simp
  | cons k0 rest ih =>
    simp only [List.foldl_cons]
    rw [ih _ (fun hk => h (List.mem_cons_of_mem _ hk))]
    exact alookup_aerase_ne c k0 k (fun hk => h (hk ▸ List.mem_cons_self _ _))

theorem length_foldl_aerase_le (ks : List κ) (c : List (κ × π)) :
    (ks.foldl aerase c).length ≤ c.length := by
  induction ks generalizing c with
  | nil => simp
  | cons k0 rest ih =>
    simp only [List.foldl_cons]
    exact le_trans (ih (aerase c k0)) (length_aerase_le c k0)

end AListLemmas

section OldestPairLemmas

variable {κ π : Type}

theorem oldestPair_go_mem (c : List (κ × Entry π)) (acc p : κ × Entry π)
    (h : c.foldl
      (fun acc p =>
        match acc with
        | none => some p
        | some q => if p.2.timestamp < q.2.timestamp then some p else some q)
      (some acc) = some p) : p ∈ c ∨ p = acc := by
  induction c generalizing acc with
  | nil => simp at h; simp [h]
  | cons q rest ih =>
    simp only [List.foldl_cons] at h
    by_cases hlt : q.2.timestamp < acc.2.timestamp
    · simp only [hlt, if_pos] at h
      rcases ih q h with h1 | h1
      · exact Or.inl (List.mem_cons_of_mem _ h1)
      · exact Or.inl (h1 ▸ List.mem_cons_self _ _)
    · simp only [hlt, if_neg, if_false] at h
      rcases ih acc h with h1 | h1
      · exact Or.inl (List.mem_cons_of_mem _ h1)
      · exact Or.inr h1

theorem oldestPair_go_min (c : List (κ × Entry π)) (acc p : κ × Entry π)
    (h : c.foldl
      (fun acc p =>
        match acc with
        | none => some p
        | some q => if p.2.timestamp < q.2.timestamp then some p else some q)
      (some acc) = some p) :
    p.2.timestamp ≤ acc.2.timestamp ∧ ∀ q ∈ c, p.2.timestamp ≤ q.2.timestamp := by
  induction c generalizing acc with
  | nil => simp at h; simp [h]
  | cons q rest ih =>
    simp only [List.foldl_cons] at h
    by_cases hlt : q.2.timestamp < acc.2.timestamp
    · simp only [hlt, if_pos] at h
      obtain ⟨h1, h2⟩ := ih q h
      refine ⟨le_trans h1 (le_of_lt hlt), ?_⟩
      intro r hr
      rcases List.mem_cons.mp hr with h3 | h3
      · exact h3 ▸ h1
      · exact h2 r h3
    · simp only [hlt, if_neg, if_false] at h
      obtain ⟨h1, h2⟩ := ih acc h
      refine ⟨h1, ?_⟩
      intro r hr
      rcases List.mem_cons.mp hr with h3 | h3
      · exact h3 ▸ le_trans h1 (Nat.le_of_not_lt hlt)
      · exact h2 r h3

theorem oldestPair_mem (c : List (κ × Entry π)) (p : κ × Entry π)
    (h : oldestPair c = some p) : p ∈ c := by
  cases c with
  | nil => simp [oldestPair] at h
  | cons q rest =>
    simp only [oldestPair, List.foldl_cons] at h
    rcases oldestPair_go_mem rest q p h with h1 | h1
    · exact List.mem_cons_of_mem _ h1
    · exact h1 ▸ List.mem_cons_self _ _

theorem oldestPair_min (c : List (κ × Entry π)) (p : κ × Entry π)
    (h : oldestPair c = some p) :
    ∀ q ∈ c, p.2.timestamp ≤ q.2.timestamp := by
  cases c with
  | nil => simp [oldestPair] at h
  | cons q rest =>
    simp only [oldestPair, List.foldl_cons] at h
    obtain ⟨h1, h2⟩ := oldestPair_go_min rest q p h
    intro r hr
    rcases List.mem_cons.mp hr with h3 | h3
    · exact h3 ▸ h1
    · exact h2 r h3

theorem oldestPair_isSome (c : List (κ × Entry π)) (h : c ≠ []) :
    (oldestPair c).isSome := by
  cases c with
  | nil => exact absurd rfl h
  | cons q rest =>
    simp only [oldestPair, List.foldl_cons]
    clear h
    induction rest generalizing q with
    | nil => simp
    | cons r rest ih =>
      simp only [List.foldl_cons]
      by_cases hlt : r.2.timestamp < q.2.timestamp
      · simp only [hlt, if_pos]
        exact ih r
      · simp only [hlt, if_neg, if_false]
        exact ih q

end OldestPairLemmas

section MemPutLemmas

variable {κ π : Type} [DecidableEq κ]

theorem length_memPutEvictOne_le (size now : Nat) (c : List (κ × Entry π))
    (k : κ) (v : π) (hc : c.length ≤ size) :
    (memPutEvictOne size now c k v).length ≤ size := by
  simp only [memPutEvictOne]
  by_cases h : size < (aput c k ⟨v, now⟩).length
  · rw [if_pos h]
    have hlen : (aput c k ⟨v, now⟩).length ≤ c.length + 1 := length_aput_le c k ⟨v, now⟩
    have hne : aput c k ⟨v, now⟩ ≠ [] := by
      intro hnil
      rw [hnil] at h
      exact Nat.not_lt_zero size h
    obtain ⟨p, hp⟩ := Option.isSome_iff_exists.mp (oldestPair_isSome _ hne)
    rw [hp]
    obtain ⟨pk, pe⟩ := p
    dsimp only
    have hmem := oldestPair_mem _ _ hp
    have hsome := alookup_isSome_of_mem _ pk pe hmem
    have := length_aerase_of_present _ pk hsome
    omega
  · rw [if_neg h]
    omega

theorem mem_keysByAge (c : List (κ × Entry π)) (k : κ) (h : k ∈ keysByAge c) :
    (alookup c k).isSome := by
  simp only [keysByAge] at h
  rcases List.mem_map.mp h with ⟨p, hp, hpk⟩
  obtain ⟨pk, pe⟩ := p
  obtain rfl : pk = k := hpk
  exact alookup_isSome_of_mem _ _ pe (List.mem_mergeSort.mp hp)

theorem length_memPutEvictTenth_le (size now : Nat) (c : List (κ × Entry π))
    (k : κ) (v : π) (hc : c.length ≤ size) :
    (memPutEvictTenth size now c k v).length ≤ size := by
  simp only [memPutEvictTenth]
  by_cases h : size < (aput c k ⟨v, now⟩).length
  · rw [if_pos h]
    have hlen : (aput c k ⟨v, now⟩).length ≤ c.length + 1 := length_aput_le c k ⟨v, now⟩
    have hkl : (keysByAge (aput c k ⟨v, now⟩)).length = (aput c k ⟨v, now⟩).length := by
      simp [keysByAge]
    have hpos : 1 ≤ (aput c k ⟨v, now⟩).length := by omega
    cases hks : (keysByAge (aput c k ⟨v, now⟩)).take
        (max 1 ((aput c k ⟨v, now⟩).length / 10)) with
    | nil =>
      exfalso
      have := congrArg List.length hks
      rw [List.length_take, hkl] at this
      simp only [List.length_nil] at this
      omega
    | cons k0 ks' =>
      simp only [List.foldl_cons]
      have hk0 : k0 ∈ keysByAge (aput c k ⟨v, now⟩) :=
        List.take_subset _ _ (hks ▸ List.mem_cons_self k0 ks')
      have hsome := mem_keysByAge _ k0 hk0
      have h1 := length_aerase_of_present _ k0 hsome
      have h2 := length_foldl_aerase_le ks' (aerase (aput c k ⟨v, now⟩) k0)
      omega
  · rw [if_neg h]
    omega

theorem exists_key_ne_of_two_le (l : List (κ × Entry π)) (k : κ)
    (h : 2 ≤ l.length) (hnd : (l.map Prod.fst).Nodup) :
    ∃ q ∈ l, q.1 ≠ k := by
  match l, h with
  | a :: b :: rest, _ =>
    simp only [List.map_cons, List.nodup_cons, List.mem_cons, List.mem_map] at hnd
    by_cases ha : a.1 = k
    · refine ⟨b, List.mem_cons_of_mem _ (List.mem_cons_self _ _), ?_⟩
      intro hb
      exact hnd.1 (Or.inl (hb.trans ha.symm).symm)
    · exact ⟨a, List.mem_cons_self _ _, ha⟩

theorem alookup_memPutEvictOne_self (size now : Nat) (c : List (κ × Entry π))
    (k : κ) (v : π) (hsize : 1 ≤ size)
    (hnd : (c.map Prod.fst).Nodup)
    (hts : ∀ p ∈ c, p.2.timestamp < now) :
    alookup (memPutEvictOne size now c k v) k = some ⟨v, now⟩ := by
  simp only [memPutEvictOne]
  have hself : alookup (aput c k ⟨v, now⟩) k = some ⟨v, now⟩ :=
    alookup_aput_self c k ⟨v, now⟩
  by_cases h : size < (aput c k ⟨v, now⟩).length
  · rw [if_pos h]
    have hne : aput c k ⟨v, now⟩ ≠ [] := by
      intro hnil
      rw [hnil] at h
      exact Nat.not_lt_zero size h
    obtain ⟨p, hp⟩ := Option.isSome_iff_exists.mp (oldestPair_isSome _ hne)
    rw [hp]
    dsimp only
    have hmem := oldestPair_mem _ _ hp
    have hmin := oldestPair_min _ _ hp
    rcases mem_aput_of_keys_nodup c k ⟨v, now⟩ hnd p hmem with h1 | h1
    · exfalso
      obtain ⟨q, hq, hqk⟩ := exists_key_ne_of_two_le (aput c k ⟨v, now⟩) k
        (by omega) (keys_nodup_aput c k ⟨v, now⟩ hnd)
      rcases mem_aput_of_keys_nodup c k ⟨v, now⟩ hnd q hq with h2 | h2
      · exact hqk (by rw [h2])
      · have hqts : q.2.timestamp < now := hts q h2.1
        have := hmin q hq
        rw [h1] at this
        simp only at this
        omega
    · rw [alookup_aerase_ne _ p.1 k (fun hk => h1.2 hk.symm)]
      exact hself
  · rw [if_neg h]
    exact hself

theorem alookup_memPutEvictTenth_self (size now : Nat) (c : List (κ × Entry π))
    (k : κ) (v : π) (hsize : 1 ≤ size)
    (hnd : (c.map Prod.fst).Nodup)
    (hts : ∀ p ∈ c, p.2.timestamp < now) :
    alookup (memPutEvictTenth size now c k v) k = some ⟨v, now⟩ := by
  simp only [memPutEvictTenth]
  have hself : alookup (aput c k ⟨v, now⟩) k = some ⟨v, now⟩ :=
    alookup_aput_self c k ⟨v, now⟩
  by_cases h : size < (aput c k ⟨v, now⟩).length
  · rw [if_pos h]
    have hnotin : k ∉ (keysByAge (aput c k ⟨v, now⟩)).take
        (max 1 ((aput c k ⟨v, now⟩).length / 10)) := by
      intro hk
      simp only [keysByAge, ← List.map_take] at hk
      rcases List.mem_map.mp hk with ⟨q, hq, hqk⟩
      have hqs : q ∈ (aput c k ⟨v, now⟩).mergeSort
          (fun a b => a.2.timestamp ≤ b.2.timestamp) :=
        List.take_subset _ _ hq
      have hqc : q ∈ aput c k ⟨v, now⟩ := List.mem_mergeSort.mp hqs
      rcases mem_aput_of_keys_nodup c k ⟨v, now⟩ hnd q hqc with h1 | h1
      · -- the freshly inserted pair sorts last; it cannot lie in the removed head
        have hm : max 1 ((aput c k ⟨v, now⟩).length / 10) <
            (aput c k ⟨v, now⟩).length := by
          have : 2 ≤ (aput c k ⟨v, now⟩).length := by omega
          have : (aput c k ⟨v, now⟩).length / 10 < (aput c k ⟨v, now⟩).length :=
            Nat.div_lt_self (by omega) (by omega)
          omega
        have hsorted : ((aput c k ⟨v, now⟩).mergeSort
            (fun a b => a.2.timestamp ≤ b.2.timestamp)).Pairwise
            (fun a b => (a.2.timestamp ≤ b.2.timestamp : Bool) = true) := by
          apply List.sorted_mergeSort
          · intro a b d hab hbd
            simp only [decide_eq_true_eq] at *
            omega
          · intro a b
            simp only [Bool.or_eq_true, decide_eq_true_eq]
            omega
        have hperm := List.mergeSort_perm (aput c k ⟨v, now⟩)
          (fun a b => a.2.timestamp ≤ b.2.timestamp)
        have hndpairs : (aput c k ⟨v, now⟩).Nodup :=
          (keys_nodup_aput c k ⟨v, now⟩ hnd).of_map
        have hnds : ((aput c k ⟨v, now⟩).mergeSort
            (fun a b => a.2.timestamp ≤ b.2.timestamp)).Nodup :=
          hperm.nodup_iff.mpr hndpairs
        set s := (aput c k ⟨v, now⟩).mergeSort
          (fun a b => a.2.timestamp ≤ b.2.timestamp) with hs
        set m := max 1 ((aput c k ⟨v, now⟩).length / 10) with hmdef
        have hslen : s.length = (aput c k ⟨v, now⟩).length := by
          rw [hs]
          exact List.length_mergeSort _
        have hdrop : s.drop m ≠ [] := by
          intro hnil
          have := congrArg List.length hnil
          rw [List.length_drop, hslen] at this
          simp only [List.length_nil] at this
          omega
        obtain ⟨y, hy⟩ := List.exists_mem_of_ne_nil _ hdrop
        have hys : y ∈ s := List.drop_subset _ _ hy
        have hyc : y ∈ aput c k ⟨v, now⟩ := List.mem_mergeSort.mp hys
        have happ : s.take m ++ s.drop m = s := List.take_append_drop m s
        have hpw : (s.take m ++ s.drop m).Pairwise
            (fun a b => (a.2.timestamp ≤ b.2.timestamp : Bool) = true) := by
          rw [happ]
          exact hsorted
        rw [List.pairwise_append] at hpw
        have hle := hpw.2.2 q hq y hy
        rcases mem_aput_of_keys_nodup c k ⟨v, now⟩ hnd y hyc with h2 | h2
        · -- y would be the fresh pair again, but it already sits in the head
          have hnds2 : (s.take m ++ s.drop m).Nodup := by
            rw [happ]
            exact hnds
          have hdisj : (s.take m).Disjoint (s.drop m) :=
            ((List.nodup_append).mp hnds2).2.2
          refine hdisj ?_ hy
          rw [h2.trans h1.symm]
          exact hq
        · have hyts : y.2.timestamp < now := hts y h2.1
          rw [h1] at hle
          simp only [decide_eq_true_eq] at hle
          omega
      · exact h1.2 hqk
    rw [alookup_foldl_aerase_not_mem _ _ _ hnotin]
    exact hself
  · rw [if_neg h]
    exact hself

end MemPutLemmas

/-! ## Path lemmas for the two cached operations -/

section MemGetLemmas

variable {κ π : Type} [DecidableEq κ]

theorem memGet_fresh (now : Nat) (c : List (κ × Entry π)) (k : κ)
    (e : Entry π) (he : alookup c k = some e)
    (hfresh : now - e.timestamp < MEMORY_CACHE_EXPIRY) :
    memGet now c k = (some e.payload, aput c k ⟨e.payload, now⟩) := by
  simp only [memGet, he, if_pos hfresh]

theorem memGet_stale (now : Nat) (c : List (κ × Entry π)) (k : κ)
    (e : Entry π) (he : alookup c k = some e)
    (hstale : ¬ now - e.timestamp < MEMORY_CACHE_EXPIRY) :
    memGet now c k = (none, c) := by
  simp only [memGet, he, if_neg hstale]

theorem memGet_miss (now : Nat) (c : List (κ × Entry π)) (k : κ)
    (he : alookup c k = none) : memGet now c k = (none, c) := by
  simp only [memGet, he]

end MemGetLemmas

namespace STT

theorem transcribe_mem_hit (now : Nat) (p : Except Unit DgResp) (st : State)
    (audio : List Nat) (e : Entry String) (hlen : 500 ≤ audio.length)
    (he : alookup st.mem (get_audio_fingerprint audio) = some e)
    (hfresh : now - e.timestamp < MEMORY_CACHE_EXPIRY) :
    transcribe_audio now p st audio =
      (.ok e.payload,
       ⟨aput st.mem (get_audio_fingerprint audio) ⟨e.payload, now⟩, st.disk⟩,
       false) := by
  have h0 : ¬ audio = [] := by
    intro h
    rw [h] at hlen
    simp at hlen
  have h1 : ¬ audio.length < 500 := by omega
  simp only [transcribe_audio, if_neg h0, if_neg h1]
  rw [memGet_fresh now st.mem _ e he hfresh]

theorem transcribe_disk_hit (now : Nat) (p : Except Unit DgResp) (st : State)
    (audio : List Nat) (f : DiskFile String) (hlen : 500 ≤ audio.length)
    (hmg : memGet now st.mem (get_audio_fingerprint audio) = (none, st.mem))
    (hcached : st.disk.isCached (audio_hash audio) = true)
    (hread : st.disk.readFile (audio_hash audio) = .ok f) :
    transcribe_audio now p st audio =
      (.ok f.data,
       ⟨memPutEvictOne MEMORY_CACHE_SIZE now st.mem
          (get_audio_fingerprint audio) f.data, st.disk⟩,
       false) := by
  have h0 : ¬ audio = [] := by
    intro h
    rw [h] at hlen
    simp at hlen
  have h1 : ¬ audio.length < 500 := by omega
  simp only [transcribe_audio, if_neg h0, if_neg h1]
  rw [hmg, hcached, hread]
  rfl

theorem transcribe_provider_path (now : Nat) (r : DgResp) (st : State)
    (audio : List Nat) (hlen : 500 ≤ audio.length)
    (hmg : memGet now st.mem (get_audio_fingerprint audio) = (none, st.mem))
    (hcached : st.disk.isCached (audio_hash audio) = false)
    (hwf : audio_hash audio ∉ st.disk.writeFails) :
    transcribe_audio now (.ok r) st audio =
      (.ok (extracted_transcript r),
       ⟨memPutEvictTenth MEMORY_CACHE_SIZE now st.mem
          (get_audio_fingerprint audio) (extracted_transcript r),
        { st.disk with
            files := aput st.disk.files (audio_hash audio)
              ⟨extracted_transcript r, now⟩ }⟩,
       true) := by
  have h0 : ¬ audio = [] := by
    intro h
    rw [h] at hlen
    simp at hlen
  have h1 : ¬ audio.length < 500 := by omega
  simp only [transcribe_audio, if_neg h0, if_neg h1]
  rw [hmg, hcached]
  simp only [Bool.false_eq_true, if_false, Disk.writeFile, if_neg hwf,
    extracted_transcript]

end STT

namespace TTS

theorem tts_mem_hit (now : Nat)
    (provider : String → String → String → Except Unit (List Nat))
    (st : State) (text voice : String) (speed : Nat) (e : Entry (List Nat))
    (htext : ¬ pyStrip text = "")
    (hvoice : ¬ (alookup VOICE_MAPPING (pyLower voice)).isNone = true)
    (hspeed : ¬ (speed < 50 ∨ 200 < speed))
    (he : alookup st.mem (memory_cache_key text voice speed) = some e)
    (hfresh : now - e.timestamp < MEMORY_CACHE_EXPIRY) :
    text_to_speech now provider st text voice speed =
      (.ok e.payload,
       ⟨aput st.mem (memory_cache_key text voice speed) ⟨e.payload, now⟩,
        st.disk⟩,
       false) := by
  simp only [text_to_speech, if_neg htext, if_neg hvoice, if_neg hspeed]
  rw [memGet_fresh now st.mem _ e he hfresh]

theorem tts_disk_hit (now : Nat)
    (provider : String → String → String → Except Unit (List Nat))
    (st : State) (text voice : String) (speed : Nat) (f : DiskFile (List Nat))
    (htext : ¬ pyStrip text = "")
    (hvoice : ¬ (alookup VOICE_MAPPING (pyLower voice)).isNone = true)
    (hspeed : ¬ (speed < 50 ∨ 200 < speed))
    (hmg : memGet now st.mem (memory_cache_key text voice speed) = (none, st.mem))
    (hcached : st.disk.isCached (full_cache_key text voice speed) = true)
    (hread : st.disk.readFile (full_cache_key text voice speed) = .ok f) :
    text_to_speech now provider st text voice speed =
      (.ok f.data,
       ⟨memPutEvictOne MEMORY_CACHE_SIZE now st.mem
          (memory_cache_key text voice speed) f.data, st.disk⟩,
       false) := by
  simp only [text_to_speech, if_neg htext, if_neg hvoice, if_neg hspeed]
  rw [hmg, hcached, hread]
  rfl

theorem tts_provider_writefail (now : Nat)
    (provider : String → String → String → Except Unit (List Nat))
    (st : State) (text voice : String) (speed : Nat) (b : List Nat)
    (htext : ¬ pyStrip text = "")
    (hvoice : ¬ (alookup VOICE_MAPPING (pyLower voice)).isNone = true)
    (hspeed : ¬ (speed < 50 ∨ 200 < speed))
    (hmg : memGet now st.mem (memory_cache_key text voice speed) = (none, st.mem))
    (hcached : st.disk.isCached (full_cache_key text voice speed) = false)
    (hprov : provider text (selected_voice_id voice)
      ((alookup SPEED_MAPPING (closest_speed speed)).getD "normal") = .ok b)
    (hgood : ¬ (b = [] ∨ b.length < 100))
    (hwf : full_cache_key text voice speed ∈ st.disk.writeFails) :
    text_to_speech now provider st text voice speed =
      (.error .cacheIOFailure, st, true) := by
  simp only [text_to_speech, if_neg htext, if_neg hvoice, if_neg hspeed]
  rw [hmg, hcached]
  simp only [Bool.false_eq_true, if_false]
  rw [hprov]
  simp only [if_neg hgood, Disk.writeFile, if_pos hwf]

theorem tts_provider_ok (now : Nat)
    (provider : String → String → String → Except Unit (List Nat))
    (st : State) (text voice : String) (speed : Nat) (b : List Nat)
    (htext : ¬ pyStrip text = "")
    (hvoice : ¬ (alookup VOICE_MAPPING (pyLower voice)).isNone = true)
    (hspeed : ¬ (speed < 50 ∨ 200 < speed))
    (hmg : memGet now st.mem (memory_cache_key text voice speed) = (none, st.mem))
    (hcached : st.disk.isCached (full_cache_key text voice speed) = false)
    (hprov : provider text (selected_voice_id voice)
      ((alookup SPEED_MAPPING (closest_speed speed)).getD "normal") = .ok b)
    (hgood : ¬ (b = [] ∨ b.length < 100))
    (hwf : full_cache_key text voice speed ∉ st.disk.writeFails) :
    text_to_speech now provider st text voice speed =
      (.ok b,
       ⟨memPutEvictTenth MEMORY_CACHE_SIZE now st.mem
          (memory_cache_key text voice speed) b,
        { st.disk with
            files := aput st.disk.files (full_cache_key text voice speed)
              ⟨b, now⟩ }⟩,
       true) := by
  simp only [text_to_speech, if_neg htext, if_neg hvoice, if_neg hspeed]
  rw [hmg, hcached]
  simp only [Bool.false_eq_true, if_false]
  rw [hprov]
  simp only [if_neg hgood, Disk.writeFile, if_neg hwf]

end TTS

/-! ## Claim C1 -/

/-- C1 (amended): the memory tier treats a stale entry as a miss at read time —
whenever the memory-tier read returns a payload, the entry stored under the key
has age below `MEMORY_CACHE_EXPIRY` at the time of the read.  The disk tier
performs no age check at read time (see the counterexample), so the claim as
stated fails for the disk tier. -/
theorem c1_memory_tier_never_serves_stale {κ π : Type} [DecidableEq κ]
    (now : Nat) (c : List (κ × Entry π)) (k : κ) (d : π)
    (mem1 : List (κ × Entry π))
    (h : memGet now c k = (some d, mem1)) :
    ∃ e, alookup c k = some e ∧ e.payload = d ∧
      now - e.timestamp < MEMORY_CACHE_EXPIRY := by
  cases he : alookup c k with
  | none =>
    rw [memGet_miss now c k he] at h
    exact absurd (congrArg Prod.fst h) (by simp)
  | some e =>
    by_cases hf : now - e.timestamp < MEMORY_CACHE_EXPIRY
    · rw [memGet_fresh now c k e he hf] at h
      refine ⟨e, rfl, ?_, hf⟩
      have h1 := congrArg Prod.fst h
      simpa using h1
    · rw [memGet_stale now c k e he hf] at h
      exact absurd (congrArg Prod.fst h) (by simp)

/-- Witness for C1's theorem at a concrete fresh entry. -/
theorem c1_witness :
    ∃ e, alookup [((1 : Nat), Entry.mk "x" 0)] 1 = some e ∧ e.payload = "x" ∧
      5 - e.timestamp < MEMORY_CACHE_EXPIRY :=
  c1_memory_tier_never_serves_stale 5 [((1 : Nat), Entry.mk "x" 0)] 1 "x"
    [((1 : Nat), Entry.mk "x" 5)] (by decide)

/-- C1 (counterexample): with the janitor not having run, `text_to_speech`
serves a disk-tier file whose age (10000 seconds) exceeds the expiry window
(3600 seconds) instead of treating it as a miss; the provider is not called. -/
theorem c1_counterexample :
    (TTS.text_to_speech 10000 (fun _ _ _ => .error ())
        ⟨[], ⟨[(TTS.full_cache_key "hello" "default" 100,
                ⟨List.replicate 100 9, 0⟩)], [], []⟩⟩
        "hello" "default" 100).1 = .ok (List.replicate 100 9) ∧
    (TTS.text_to_speech 10000 (fun _ _ _ => .error ())
        ⟨[], ⟨[(TTS.full_cache_key "hello" "default" 100,
                ⟨List.replicate 100 9, 0⟩)], [], []⟩⟩
        "hello" "default" 100).2.2 = false ∧
    MEMORY_CACHE_EXPIRY < 10000 - 0 := by
  decide

/-! ## Claim C3 -/

/-- C3 (amended): the two non-deferred memory-cache writes (the disk-promotion
write and the post-provider write) never leave more than
`MEMORY_CACHE_SIZE = 100` entries in the tts memory cache.  The deferred write
performed after a drained stream inserts without any eviction check and can
exceed the bound (see the counterexample). -/
theorem c3_nondeferred_puts_preserve_bound (now : Nat)
    (c : List (TTS.MemKey × Entry (List Nat))) (k : TTS.MemKey) (v : List Nat)
    (hc : c.length ≤ TTS.MEMORY_CACHE_SIZE) :
    (memPutEvictOne TTS.MEMORY_CACHE_SIZE now c k v).length ≤
      TTS.MEMORY_CACHE_SIZE ∧
    (memPutEvictTenth TTS.MEMORY_CACHE_SIZE now c k v).length ≤
      TTS.MEMORY_CACHE_SIZE :=
  ⟨length_memPutEvictOne_le _ _ _ _ _ hc, length_memPutEvictTenth_le _ _ _ _ _ hc⟩

/-- Witness for C3's theorem on the empty cache. -/
theorem c3_witness :
    (memPutEvictOne TTS.MEMORY_CACHE_SIZE 3
       ([] : List (TTS.MemKey × Entry (List Nat)))
       (TTS.MemKey.mk "a" "default" 100) [1]).length ≤ TTS.MEMORY_CACHE_SIZE ∧
    (memPutEvictTenth TTS.MEMORY_CACHE_SIZE 3
       ([] : List (TTS.MemKey × Entry (List Nat)))
       (TTS.MemKey.mk "a" "default" 100) [1]).length ≤ TTS.MEMORY_CACHE_SIZE :=
  c3_nondeferred_puts_preserve_bound 3 [] (TTS.MemKey.mk "a" "default" 100) [1]
    (by decide)

/-- C3 (counterexample): starting from a memory cache holding exactly
`MEMORY_CACHE_SIZE` entries, the deferred cache write scheduled after a drained
stream (`save_to_cache`) pushes the map to 101 entries — it performs no
eviction. -/
theorem c3_counterexample :
    fullMemCache.length = TTS.MEMORY_CACHE_SIZE ∧
    TTS.MEMORY_CACHE_SIZE <
      (TTS.save_to_cache 200 [List.replicate 100 7]
        (TTS.full_cache_key "t" "default" 100) ⟨"zz", "default", 100⟩
        ⟨fullMemCache, ⟨[], [], []⟩⟩).mem.length := by
  decide

/-! ## Claim C4 -/

/-- C4 (amended): a failed producer delivers exactly its chunks, signals the
failure, and leaves the cache state untouched; a drained producer delivers all
chunks without failure, and the deferred write stores the concatenation of the
delivered chunks under the request's disk key if and only if that concatenation
is at least 100 bytes (a shorter fully drained stream writes nothing — see the
counterexample). -/
theorem c4_stream_write_characterisation (now : Nat) (p : TTS.Producer)
    (fk : TTS.FullKey) (mk : TTS.MemKey) (st : TTS.State) :
    (p.ok = false → TTS.buffered_stream now p fk mk st =
      ⟨p.chunks, true, st⟩) ∧
    (p.ok = true → (TTS.buffered_stream now p fk mk st).delivered = p.chunks ∧
      (TTS.buffered_stream now p fk mk st).failed = false) ∧
    (p.ok = true → 100 ≤ p.chunks.flatten.length → fk ∉ st.disk.writeFails →
      alookup (TTS.buffered_stream now p fk mk st).final.disk.files fk =
        some ⟨p.chunks.flatten, now⟩) ∧
    (p.ok = true → p.chunks.flatten.length < 100 →
      (TTS.buffered_stream now p fk mk st).final = st) := by
  refine ⟨?_, ?_, ?_, ?_⟩
  · intro h
    simp [TTS.buffered_stream, h]
  · intro h
    simp [TTS.buffered_stream, h]
  · intro h hlen hwf
    have hne : p.chunks.flatten ≠ [] := by
      intro hn
      rw [hn] at hlen
      simp at hlen
    simp only [TTS.buffered_stream, h, if_true, TTS.save_to_cache,
      if_pos (And.intro hne hlen), Disk.writeFile, if_neg hwf]
    exact alookup_aput_self _ _ _
  · intro h hlen
    have hno : ¬ (p.chunks.flatten ≠ [] ∧ 100 ≤ p.chunks.flatten.length) := by
      intro hcon
      omega
    simp only [TTS.buffered_stream, h, if_true, TTS.save_to_cache, if_neg hno]

/-- Witness for C4's theorem: a drained 100-byte stream writes its bytes; a
failed stream leaves the state unchanged. -/
theorem c4_witness :
    alookup (TTS.buffered_stream 7 ⟨[List.replicate 100 2], true⟩
        (TTS.full_cache_key "w" "default" 100) ⟨"w", "default", 100⟩
        ⟨[], ⟨[], [], []⟩⟩).final.disk.files
      (TTS.full_cache_key "w" "default" 100) =
      some ⟨List.replicate 100 2, 7⟩ ∧
    TTS.buffered_stream 7 ⟨[[1]], false⟩
        (TTS.full_cache_key "w" "default" 100) ⟨"w", "default", 100⟩
        ⟨[], ⟨[], [], []⟩⟩ =
      ⟨[[1]], true, ⟨[], ⟨[], [], []⟩⟩⟩ := by
  constructor
  · have h := (c4_stream_write_characterisation 7 ⟨[List.replicate 100 2], true⟩
      (TTS.full_cache_key "w" "default" 100) ⟨"w", "default", 100⟩
      ⟨[], ⟨[], [], []⟩⟩).2.2.1 rfl (by decide) (by decide)
    simpa using h
  · exact (c4_stream_write_characterisation 7 ⟨[[1]], false⟩
      (TTS.full_cache_key "w" "default" 100) ⟨"w", "default", 100⟩
      ⟨[], ⟨[], [], []⟩⟩).1 rfl

/-- C4 (counterexample): a fully drained stream totalling only 50 bytes is
delivered to the client without failure, yet no disk-tier file is written for
its key (the deferred write requires at least 100 bytes). -/
theorem c4_counterexample :
    (TTS.buffered_stream 5 ⟨[List.replicate 50 1], true⟩
        (TTS.full_cache_key "hi" "default" 100) ⟨"hi", "default", 100⟩
        ⟨[], ⟨[], [], []⟩⟩).failed = false ∧
    (TTS.buffered_stream 5 ⟨[List.replicate 50 1], true⟩
        (TTS.full_cache_key "hi" "default" 100) ⟨"hi", "default", 100⟩
        ⟨[], ⟨[], [], []⟩⟩).delivered = [List.replicate 50 1] ∧
    alookup (TTS.buffered_stream 5 ⟨[List.replicate 50 1], true⟩
        (TTS.full_cache_key "hi" "default" 100) ⟨"hi", "default", 100⟩
        ⟨[], ⟨[], [], []⟩⟩).final.disk.files
      (TTS.full_cache_key "hi" "default" 100) = none ∧
    (TTS.buffered_stream 5 ⟨[List.replicate 50 1], true⟩
        (TTS.full_cache_key "hi" "default" 100) ⟨"hi", "default", 100⟩
        ⟨[], ⟨[], [], []⟩⟩).final.mem = [] := by
  decide

/-! ## Claim C5 -/

/-- C5 (amended): a disk-cache write failure after a successful provider
computation is not degraded to a cache miss — the exception propagates and the
whole request fails with a cache-IO error, for `text_to_speech` and
`transcribe_audio` alike (the cache IO sits inside the same `try` whose
handler re-raises). -/
theorem c5_cache_io_failure_fails_request :
    (∀ (now : Nat)
       (provider : String → String → String → Except Unit (List Nat))
       (st : TTS.State) (text voice : String) (speed : Nat) (b : List Nat),
       ¬ pyStrip text = "" →
       ¬ (alookup TTS.VOICE_MAPPING (pyLower voice)).isNone = true →
       ¬ (speed < 50 ∨ 200 < speed) →
       memGet now st.mem (TTS.memory_cache_key text voice speed) =
         (none, st.mem) →
       st.disk.isCached (TTS.full_cache_key text voice speed) = false →
       provider text (TTS.selected_voice_id voice)
         ((alookup TTS.SPEED_MAPPING (TTS.closest_speed speed)).getD "normal") =
         .ok b →
       ¬ (b = [] ∨ b.length < 100) →
       TTS.full_cache_key text voice speed ∈ st.disk.writeFails →
       TTS.text_to_speech now provider st text voice speed =
         (.error TTS.Err.cacheIOFailure, st, true)) ∧
    (∀ (now : Nat) (r : STT.DgResp) (st : STT.State) (audio : List Nat),
       500 ≤ audio.length →
       memGet now st.mem (STT.get_audio_fingerprint audio) = (none, st.mem) →
       st.disk.isCached (STT.audio_hash audio) = false →
       STT.audio_hash audio ∈ st.disk.writeFails →
       STT.transcribe_audio now (.ok r) st audio =
         (.error STT.Err.cacheIOFailure, st, true)) := by
  constructor
  · intro now provider st text voice speed b htext hvoice hspeed hmg hcached
      hprov hgood hwf
    exact TTS.tts_provider_writefail now provider st text voice speed b htext
      hvoice hspeed hmg hcached hprov hgood hwf
  · intro now r st audio hlen hmg hcached hwf
    have h0 : ¬ audio = [] := by
      intro h
      rw [h] at hlen
      simp at hlen
    have h1 : ¬ audio.length < 500 := by omega
    simp only [STT.transcribe_audio, if_neg h0, if_neg h1]
    rw [hmg, hcached]
    simp only [Bool.false_eq_true, if_false, Disk.writeFile, if_pos hwf]

set_option maxRecDepth 4000 in
/-- Witness for C5's theorem: concrete failing-write runs of both
operations. -/
theorem c5_witness :
    TTS.text_to_speech 5 (fun _ _ _ => .ok (List.replicate 100 5))
        ⟨[], ⟨[], [], [TTS.full_cache_key "hello" "default" 100]⟩⟩
        "hello" "default" 100 =
      (.error TTS.Err.cacheIOFailure,
       ⟨[], ⟨[], [], [TTS.full_cache_key "hello" "default" 100]⟩⟩, true) ∧
    STT.transcribe_audio 5 (.ok ⟨some ("hi there", 90)⟩)
        ⟨[], ⟨[], [], [STT.audio_hash (List.replicate 500 1)]⟩⟩
        (List.replicate 500 1) =
      (.error STT.Err.cacheIOFailure,
       ⟨[], ⟨[], [], [STT.audio_hash (List.replicate 500 1)]⟩⟩, true) := by
  constructor
  · exact c5_cache_io_failure_fails_request.1 5
      (fun _ _ _ => .ok (List.replicate 100 5))
      ⟨[], ⟨[], [], [TTS.full_cache_key "hello" "default" 100]⟩⟩
      "hello" "default" 100 (List.replicate 100 5)
      (by decide) (by decide) (by decide) (by decide) (by decide) rfl
      (by decide) (by decide)
  · exact c5_cache_io_failure_fails_request.2 5 ⟨some ("hi there", 90)⟩
      ⟨[], ⟨[], [], [STT.audio_hash (List.replicate 500 1)]⟩⟩
      (List.replicate 500 1) (by decide) (by decide) (by decide) (by decide)

/-- C5 (counterexample): the provider computes valid audio, yet the request
fails with a cache-IO error because the disk write of the cache file raises —
the operation does not degrade to a cache miss. -/
theorem c5_counterexample :
    (TTS.text_to_speech 5 (fun _ _ _ => .ok (List.replicate 100 5))
        ⟨[], ⟨[], [], [TTS.full_cache_key "hello" "default" 100]⟩⟩
        "hello" "default" 100).1 = .error TTS.Err.cacheIOFailure ∧
    (TTS.text_to_speech 5 (fun _ _ _ => .ok (List.replicate 100 5))
        ⟨[], ⟨[], [], [TTS.full_cache_key "hello" "default" 100]⟩⟩
        "hello" "default" 100).2.2 = true := by
  decide

/-! ## Claim C2 -/

/-- C2 (counterexample): `sampleTextA` and `sampleTextB` differ (in their
101st character) but share their first 100 characters, so they share the
coarse memory-cache key.  After synthesising `sampleTextA`, a request for
`sampleTextB` hits the memory tier and returns the audio computed for
`sampleTextA` (all ones) — not the audio the provider produces for
`sampleTextB` (all twos) — without invoking the provider. -/
theorem c2_counterexample :
    sampleTextA ≠ sampleTextB ∧
    sampleProvider sampleTextB "x" "y" = .ok (List.replicate 100 2) ∧
    (TTS.text_to_speech 1 sampleProvider
      (TTS.text_to_speech 0 sampleProvider ⟨[], ⟨[], [], []⟩⟩
        sampleTextA "default" 100).2.1
      sampleTextB "default" 100).1 = .ok (List.replicate 100 1) ∧
    (TTS.text_to_speech 1 sampleProvider
      (TTS.text_to_speech 0 sampleProvider ⟨[], ⟨[], [], []⟩⟩
        sampleTextA "default" 100).2.1
      sampleTextB "default" 100).2.2 = false ∧
    (List.replicate 100 1 : List Nat) ≠ List.replicate 100 2 := by
  decide

/-- C2 (amended): the coarse key can only collide between texts agreeing on
their first 100 characters.  When two valid requests' texts differ within the
first 100 characters, the cache built by the first request never serves the
second: starting from the empty state, the second call invokes the provider
and returns the audio computed for its own text. -/
theorem c2_distinct_prefix_serves_correct_text
    (now1 now2 : Nat)
    (provider : String → String → String → Except Unit (List Nat))
    (t1 t2 voice : String) (speed : Nat) (b1 b2 : List Nat)
    (ht1 : ¬ pyStrip t1 = "") (ht2 : ¬ pyStrip t2 = "")
    (hvoice : ¬ (alookup TTS.VOICE_MAPPING (pyLower voice)).isNone = true)
    (hspeed : ¬ (speed < 50 ∨ 200 < speed))
    (hpref : pyTake t1 100 ≠ pyTake t2 100)
    (hp1 : provider t1 (TTS.selected_voice_id voice)
      ((alookup TTS.SPEED_MAPPING (TTS.closest_speed speed)).getD "normal") =
      .ok b1)
    (hp2 : provider t2 (TTS.selected_voice_id voice)
      ((alookup TTS.SPEED_MAPPING (TTS.closest_speed speed)).getD "normal") =
      .ok b2)
    (hb1 : ¬ (b1 = [] ∨ b1.length < 100))
    (hb2 : ¬ (b2 = [] ∨ b2.length < 100)) :
    (TTS.text_to_speech now1 provider ⟨[], ⟨[], [], []⟩⟩ t1 voice speed).1 =
      .ok b1 ∧
    (TTS.text_to_speech now2 provider
      (TTS.text_to_speech now1 provider ⟨[], ⟨[], [], []⟩⟩ t1 voice speed).2.1
      t2 voice speed).1 = .ok b2 ∧
    (TTS.text_to_speech now2 provider
      (TTS.text_to_speech now1 provider ⟨[], ⟨[], [], []⟩⟩ t1 voice speed).2.1
      t2 voice speed).2.2 = true := by
  have hkey : ¬ (TTS.memory_cache_key t1 voice speed =
      TTS.memory_cache_key t2 voice speed) := by
    simp only [TTS.memory_cache_key, TTS.MemKey.mk.injEq]
    intro hc
    exact hpref hc.1
  have ht12 : t1 ≠ t2 := by
    intro h
    exact hpref (by rw [h])
  have hfk : ¬ (TTS.full_cache_key t1 voice speed =
      TTS.full_cache_key t2 voice speed) := by
    simp only [TTS.full_cache_key, TTS.FullKey.mk.injEq]
    intro hc
    exact ht12 hc.1
  have hrun1 := TTS.tts_provider_ok now1 provider ⟨[], ⟨[], [], []⟩⟩ t1 voice
    speed b1 ht1 hvoice hspeed (memGet_miss now1 [] _ rfl) rfl hp1 hb1
    (by simp)
  have hmem1 : memPutEvictTenth TTS.MEMORY_CACHE_SIZE now1 []
      (TTS.memory_cache_key t1 voice speed) b1 =
      [(TTS.memory_cache_key t1 voice speed, Entry.mk b1 now1)] := by
    simp [memPutEvictTenth, aput, TTS.MEMORY_CACHE_SIZE]
  rw [hrun1]
  dsimp only
  rw [hmem1]
  have hlook2 : alookup [(TTS.memory_cache_key t1 voice speed,
      Entry.mk b1 now1)] (TTS.memory_cache_key t2 voice speed) = none := by
    rw [alookup_cons, if_neg hkey]
    rfl
  have hcached2 : (TTS.State.mk
      [(TTS.memory_cache_key t1 voice speed, Entry.mk b1 now1)]
      (Disk.mk (aput [] (TTS.full_cache_key t1 voice speed)
        (DiskFile.mk b1 now1)) [] [])).disk.isCached
      (TTS.full_cache_key t2 voice speed) = false := by
    show (alookup (aput [] (TTS.full_cache_key t1 voice speed)
      (DiskFile.mk b1 now1)) (TTS.full_cache_key t2 voice speed)).isSome = false
    rw [show aput ([] : List (TTS.FullKey × DiskFile (List Nat)))
        (TTS.full_cache_key t1 voice speed) (DiskFile.mk b1 now1) =
        [(TTS.full_cache_key t1 voice speed, DiskFile.mk b1 now1)] from rfl,
      alookup_cons, if_neg hfk]
    rfl
  have hrun2 := TTS.tts_provider_ok now2 provider
    (TTS.State.mk [(TTS.memory_cache_key t1 voice speed, Entry.mk b1 now1)]
      (Disk.mk (aput [] (TTS.full_cache_key t1 voice speed)
        (DiskFile.mk b1 now1)) [] []))
    t2 voice speed b2 ht2 hvoice hspeed
    (memGet_miss now2 _ _ hlook2) hcached2 hp2 hb2 (by simp)
  rw [hrun2]
  exact ⟨rfl, rfl, rfl⟩

/-- Witness for C2's theorem: two one-character texts. -/
theorem c2_witness :
    (TTS.text_to_speech 0 sampleProvider ⟨[], ⟨[], [], []⟩⟩
      "x" "default" 100).1 = .ok (List.replicate 100 2) ∧
    (TTS.text_to_speech 1 sampleProvider
      (TTS.text_to_speech 0 sampleProvider ⟨[], ⟨[], [], []⟩⟩
        "x" "default" 100).2.1
      "y" "default" 100).1 = .ok (List.replicate 100 2) ∧
    (TTS.text_to_speech 1 sampleProvider
      (TTS.text_to_speech 0 sampleProvider ⟨[], ⟨[], [], []⟩⟩
        "x" "default" 100).2.1
      "y" "default" 100).2.2 = true :=
  c2_distinct_prefix_serves_correct_text 0 1 sampleProvider "x" "y" "default"
    100 (List.replicate 100 2) (List.replicate 100 2)
    (by decide) (by decide) (by decide) (by decide) (by decide)
    (by decide) (by decide) (by decide) (by decide)

/-! ## Claim C6 -/

/-- C6 (amended): each cache entry carries a single timestamp.  A fresh hit
returns the payload and overwrites that timestamp with the current time — the
same field the expiry check reads, so a hit extends the entry's lifetime
(there is no separate last-accessed marker).  On overflow the eviction
candidate is the entry whose current (possibly refreshed) timestamp is
minimal, i.e. least-recently-written-or-hit, not the oldest by creation
time. -/
theorem c6_single_timestamp_refresh_and_eviction {κ π : Type} [DecidableEq κ]
    (now : Nat) (c : List (κ × Entry π)) (k : κ) :
    (∀ e, alookup c k = some e → now - e.timestamp < MEMORY_CACHE_EXPIRY →
      memGet now c k = (some e.payload, aput c k ⟨e.payload, now⟩)) ∧
    (∀ p, oldestPair c = some p →
      p ∈ c ∧ ∀ q ∈ c, p.2.timestamp ≤ q.2.timestamp) := by
  constructor
  · intro e he hf
    exact memGet_fresh now c k e he hf
  · intro p hp
    exact ⟨oldestPair_mem c p hp, oldestPair_min c p hp⟩

/-- Witness for C6's theorem at a concrete one-entry cache. -/
theorem c6_witness :
    memGet 10 [((1 : Nat), Entry.mk "a" 5)] 1 =
      (some (Entry.mk "a" 5).payload,
       aput [((1 : Nat), Entry.mk "a" 5)] 1 ⟨(Entry.mk "a" 5).payload, 10⟩) ∧
    ((1 : Nat), Entry.mk "a" 5) ∈ [((1 : Nat), Entry.mk "a" 5)] := by
  constructor
  · exact (c6_single_timestamp_refresh_and_eviction 10
      [((1 : Nat), Entry.mk "a" 5)] 1).1 (Entry.mk "a" 5) (by decide) (by decide)
  · exact ((c6_single_timestamp_refresh_and_eviction 10
      [((1 : Nat), Entry.mk "a" 5)] 1).2 ((1 : Nat), Entry.mk "a" 5)
      (by decide)).1

/-- C6 (counterexample): a hit at time 3599 on an entry created at time 0
resets the very timestamp the expiry check uses, so a further read at time
7198 — age 7198 > 3600 since creation — still returns the payload.  The hit
did not merely refresh an eviction-preference marker; it reset the expiry
age. -/
theorem c6_counterexample :
    (memGet 3599 [(TTS.memory_cache_key "k" "default" 100, Entry.mk [1, 2, 3] 0)]
      (TTS.memory_cache_key "k" "default" 100)).1 = some [1, 2, 3] ∧
    (memGet 7198
      (memGet 3599 [(TTS.memory_cache_key "k" "default" 100, Entry.mk [1, 2, 3] 0)]
        (TTS.memory_cache_key "k" "default" 100)).2
      (TTS.memory_cache_key "k" "default" 100)).1 = some [1, 2, 3] ∧
    MEMORY_CACHE_EXPIRY < 7198 - 0 := by
  decide

/-! ## Claim C8 -/

/-- C8: an input shorter than 500 bytes (the empty input included) makes
`transcribe_audio` return a non-error sentinel text without touching the cache
and without invoking the provider, and no exception escapes. -/
theorem c8_short_audio_sentinel (now : Nat) (p : Except Unit STT.DgResp)
    (st : STT.State) (audio : List Nat) (hshort : audio.length < 500) :
    STT.transcribe_audio now p st audio =
      (.ok (if audio = [] then STT.NO_SPEECH_SENTINEL else STT.TOO_SHORT_SENTINEL),
       st, false) := by
  by_cases h : audio = []
  · simp [STT.transcribe_audio, h]
  · simp [STT.transcribe_audio, h, hshort]

/-- Witness for C8's theorem on a 3-byte input. -/
theorem c8_witness :
    STT.transcribe_audio 0 (.error ()) ⟨[], ⟨[], [], []⟩⟩ [1, 2, 3] =
      (.ok STT.TOO_SHORT_SENTINEL, ⟨[], ⟨[], [], []⟩⟩, false) := by
  have h := c8_short_audio_sentinel 0 (.error ()) ⟨[], ⟨[], [], []⟩⟩ [1, 2, 3]
    (by decide)
  simpa using h

/-! ## Claims C7 and C10: caching of a first transcription -/

/-- After the memory tier misses, a successful first `transcribe_audio` call
returns some transcript and leaves it in the memory cache under the audio's
fingerprint, stamped with the call time. -/
theorem transcribe_after_mem_miss (t1 : Nat) (r : STT.DgResp)
    (st : STT.State) (audio : List Nat)
    (hlen : 500 ≤ audio.length)
    (hnd : (st.mem.map Prod.fst).Nodup)
    (hts : ∀ q ∈ st.mem, q.2.timestamp < t1)
    (hrf : st.disk.readFails = [])
    (hwf : st.disk.writeFails = [])
    (hmg : memGet t1 st.mem (STT.get_audio_fingerprint audio) =
      (none, st.mem)) :
    ∃ T, (STT.transcribe_audio t1 (.ok r) st audio).1 = .ok T ∧
      alookup (STT.transcribe_audio t1 (.ok r) st audio).2.1.mem
        (STT.get_audio_fingerprint audio) = some (Entry.mk T t1) := by
  cases hc : st.disk.isCached (STT.audio_hash audio) with
  | true =>
    have hsome : (alookup st.disk.files (STT.audio_hash audio)).isSome := hc
    obtain ⟨f, hfl⟩ := Option.isSome_iff_exists.mp hsome
    have hread : st.disk.readFile (STT.audio_hash audio) = .ok f := by
      simp only [Disk.readFile, hrf, List.not_mem_nil, if_false, hfl]
    refine ⟨f.data, ?_, ?_⟩
    · rw [STT.transcribe_disk_hit t1 (.ok r) st audio f hlen hmg hc hread]
    · rw [STT.transcribe_disk_hit t1 (.ok r) st audio f hlen hmg hc hread]
      exact alookup_memPutEvictOne_self STT.MEMORY_CACHE_SIZE t1 st.mem
        (STT.get_audio_fingerprint audio) f.data (by decide) hnd hts
  | false =>
    have hwff : STT.audio_hash audio ∉ st.disk.writeFails := by
      rw [hwf]
      simp
    refine ⟨STT.extracted_transcript r, ?_, ?_⟩
    · rw [STT.transcribe_provider_path t1 r st audio hlen hmg hc hwff]
    · rw [STT.transcribe_provider_path t1 r st audio hlen hmg hc hwff]
      exact alookup_memPutEvictTenth_self STT.MEMORY_CACHE_SIZE t1 st.mem
        (STT.get_audio_fingerprint audio) (STT.extracted_transcript r)
        (by decide) hnd hts

/-- A successful first `transcribe_audio` call (any cache state whose entries
predate the call, no disk failures) returns some transcript and leaves it in
the memory cache under the audio's fingerprint. -/
theorem transcribe_first_call_caches (t1 : Nat) (r : STT.DgResp)
    (st : STT.State) (audio : List Nat)
    (hlen : 500 ≤ audio.length)
    (hnd : (st.mem.map Prod.fst).Nodup)
    (hts : ∀ q ∈ st.mem, q.2.timestamp < t1)
    (hrf : st.disk.readFails = [])
    (hwf : st.disk.writeFails = []) :
    ∃ T, (STT.transcribe_audio t1 (.ok r) st audio).1 = .ok T ∧
      alookup (STT.transcribe_audio t1 (.ok r) st audio).2.1.mem
        (STT.get_audio_fingerprint audio) = some (Entry.mk T t1) := by
  cases he : alookup st.mem (STT.get_audio_fingerprint audio) with
  | some e =>
    by_cases hf : t1 - e.timestamp < MEMORY_CACHE_EXPIRY
    · refine ⟨e.payload, ?_, ?_⟩
      · rw [STT.transcribe_mem_hit t1 (.ok r) st audio e hlen he hf]
      · rw [STT.transcribe_mem_hit t1 (.ok r) st audio e hlen he hf]
        exact alookup_aput_self _ _ _
    · exact transcribe_after_mem_miss t1 r st audio hlen hnd hts hrf hwf
        (memGet_stale t1 st.mem _ e he hf)
  | none =>
    exact transcribe_after_mem_miss t1 r st audio hlen hnd hts hrf hwf
      (memGet_miss t1 st.mem _ he)

/-- C7: two successive `transcribe_audio` calls on identical audio bytes (at
least 500 bytes, the second within the expiry window) return the identical
transcript; the second call is served from the memory cache and never invokes
the provider (its provider argument is arbitrary, even a failing one).  The
content fingerprint is a deterministic function of the bytes, so this holds
also above the 10000-byte sampling threshold — the witness instantiates it
with a 10050-byte input. -/
theorem c7_identical_audio_second_call_cached (t1 t2 : Nat) (r : STT.DgResp)
    (p2 : Except Unit STT.DgResp) (st : STT.State) (audio : List Nat)
    (hlen : 500 ≤ audio.length)
    (hnd : (st.mem.map Prod.fst).Nodup)
    (hts : ∀ q ∈ st.mem, q.2.timestamp < t1)
    (hrf : st.disk.readFails = [])
    (hwf : st.disk.writeFails = [])
    (hexp : t2 - t1 < MEMORY_CACHE_EXPIRY) :
    ∃ T, (STT.transcribe_audio t1 (.ok r) st audio).1 = .ok T ∧
      (STT.transcribe_audio t2 p2
        (STT.transcribe_audio t1 (.ok r) st audio).2.1 audio).1 = .ok T ∧
      (STT.transcribe_audio t2 p2
        (STT.transcribe_audio t1 (.ok r) st audio).2.1 audio).2.2 = false := by
  obtain ⟨T, hres, hlook⟩ :=
    transcribe_first_call_caches t1 r st audio hlen hnd hts hrf hwf
  have h2 := STT.transcribe_mem_hit t2 p2
    (STT.transcribe_audio t1 (.ok r) st audio).2.1 audio (Entry.mk T t1)
    hlen hlook (by simpa using hexp)
  refine ⟨T, hres, ?_, ?_⟩
  · rw [h2]
  · rw [h2]

/-- Witness for C7's theorem: a 10050-byte recording — above the 10000-byte
sampling threshold — transcribed twice from the empty cache state. -/
theorem c7_witness :
    ∃ T, (STT.transcribe_audio 0 (.ok ⟨some ("hello world", 95)⟩)
        ⟨[], ⟨[], [], []⟩⟩ (List.replicate 10050 3)).1 = .ok T ∧
      (STT.transcribe_audio 100 (.error ())
        (STT.transcribe_audio 0 (.ok ⟨some ("hello world", 95)⟩)
          ⟨[], ⟨[], [], []⟩⟩ (List.replicate 10050 3)).2.1
        (List.replicate 10050 3)).1 = .ok T ∧
      (STT.transcribe_audio 100 (.error ())
        (STT.transcribe_audio 0 (.ok ⟨some ("hello world", 95)⟩)
          ⟨[], ⟨[], [], []⟩⟩ (List.replicate 10050 3)).2.1
        (List.replicate 10050 3)).2.2 = false :=
  c7_identical_audio_second_call_cached 0 100 ⟨some ("hello world", 95)⟩
    (.error ()) ⟨[], ⟨[], [], []⟩⟩ (List.replicate 10050 3)
    (by rw [List.length_replicate]; omega) (by simp) (by simp) rfl rfl
    (by decide)

/-- C10: when the provider response cannot be parsed, or parses with
confidence below 0.5 and a transcript of fewer than two words,
`transcribe_audio` returns a fixed sentinel string, writes that sentinel into
the disk cache (under the full hash) and the memory cache (under the
fingerprint), and a later call with identical audio within the expiry window
returns the same sentinel without contacting the provider. -/
theorem c10_bad_response_sentinel_cached (t1 t2 : Nat) (r : STT.DgResp)
    (p2 : Except Unit STT.DgResp) (st : STT.State) (audio : List Nat)
    (hlen : 500 ≤ audio.length)
    (hnd : (st.mem.map Prod.fst).Nodup)
    (hts : ∀ q ∈ st.mem, q.2.timestamp < t1)
    (hrf : st.disk.readFails = [])
    (hwf : st.disk.writeFails = [])
    (hmiss : alookup st.mem (STT.get_audio_fingerprint audio) = none)
    (hdisk : st.disk.isCached (STT.audio_hash audio) = false)
    (hbad : r.parsed = none ∨
      ∃ T conf, r.parsed = some (T, conf) ∧ conf < 50 ∧
        (STT.splitWords T).length < 2)
    (hexp : t2 - t1 < MEMORY_CACHE_EXPIRY) :
    (STT.transcribe_audio t1 (.ok r) st audio).1 =
      .ok (STT.extracted_transcript r) ∧
    (STT.extracted_transcript r = STT.PARSE_FAIL_SENTINEL ∨
     STT.extracted_transcript r = STT.UNCLEAR_SENTINEL) ∧
    (STT.transcribe_audio t1 (.ok r) st audio).2.2 = true ∧
    alookup (STT.transcribe_audio t1 (.ok r) st audio).2.1.disk.files
      (STT.audio_hash audio) =
      some (DiskFile.mk (STT.extracted_transcript r) t1) ∧
    alookup (STT.transcribe_audio t1 (.ok r) st audio).2.1.mem
      (STT.get_audio_fingerprint audio) =
      some (Entry.mk (STT.extracted_transcript r) t1) ∧
    (STT.transcribe_audio t2 p2
      (STT.transcribe_audio t1 (.ok r) st audio).2.1 audio).1 =
      .ok (STT.extracted_transcript r) ∧
    (STT.transcribe_audio t2 p2
      (STT.transcribe_audio t1 (.ok r) st audio).2.1 audio).2.2 = false := by
  have hmg := memGet_miss t1 st.mem (STT.get_audio_fingerprint audio) hmiss
  have hwff : STT.audio_hash audio ∉ st.disk.writeFails := by
    rw [hwf]
    simp
  have hrun := STT.transcribe_provider_path t1 r st audio hlen hmg hdisk hwff
  have hsent : STT.extracted_transcript r = STT.PARSE_FAIL_SENTINEL ∨
      STT.extracted_transcript r = STT.UNCLEAR_SENTINEL := by
    rcases hbad with h | ⟨T, conf, hp, hconf, hwords⟩
    · left
      simp [STT.extracted_transcript, h]
    · right
      simp [STT.extracted_transcript, hp, hconf, hwords]
  have hlookmem : alookup (STT.transcribe_audio t1 (.ok r) st audio).2.1.mem
      (STT.get_audio_fingerprint audio) =
      some (Entry.mk (STT.extracted_transcript r) t1) := by
    rw [hrun]
    exact alookup_memPutEvictTenth_self STT.MEMORY_CACHE_SIZE t1 st.mem
      (STT.get_audio_fingerprint audio) (STT.extracted_transcript r)
      (by decide) hnd hts
  have h2 := STT.transcribe_mem_hit t2 p2
    (STT.transcribe_audio t1 (.ok r) st audio).2.1 audio
    (Entry.mk (STT.extracted_transcript r) t1) hlen hlookmem
    (by simpa using hexp)
  refine ⟨?_, hsent, ?_, ?_, hlookmem, ?_, ?_⟩
  · rw [hrun]
  · rw [hrun]
  · rw [hrun]
    exact alookup_aput_self _ _ _
  · rw [h2]
  · rw [h2]

/-- Witness for C10's theorem: an unparseable provider response for a 600-byte
recording, from the empty cache state. -/
theorem c10_witness :
    (STT.transcribe_audio 0 (.ok ⟨none⟩) ⟨[], ⟨[], [], []⟩⟩
        (List.replicate 600 4)).1 =
      .ok (STT.extracted_transcript ⟨none⟩) ∧
    (STT.extracted_transcript ⟨none⟩ = STT.PARSE_FAIL_SENTINEL ∨
     STT.extracted_transcript ⟨none⟩ = STT.UNCLEAR_SENTINEL) ∧
    (STT.transcribe_audio 0 (.ok ⟨none⟩) ⟨[], ⟨[], [], []⟩⟩
        (List.replicate 600 4)).2.2 = true ∧
    alookup (STT.transcribe_audio 0 (.ok ⟨none⟩) ⟨[], ⟨[], [], []⟩⟩
        (List.replicate 600 4)).2.1.disk.files
      (STT.audio_hash (List.replicate 600 4)) =
      some (DiskFile.mk (STT.extracted_transcript ⟨none⟩) 0) ∧
    alookup (STT.transcribe_audio 0 (.ok ⟨none⟩) ⟨[], ⟨[], [], []⟩⟩
        (List.replicate 600 4)).2.1.mem
      (STT.get_audio_fingerprint (List.replicate 600 4)) =
      some (Entry.mk (STT.extracted_transcript ⟨none⟩) 0) ∧
    (STT.transcribe_audio 50 (.error ())
      (STT.transcribe_audio 0 (.ok ⟨none⟩) ⟨[], ⟨[], [], []⟩⟩
        (List.replicate 600 4)).2.1 (List.replicate 600 4)).1 =
      .ok (STT.extracted_transcript ⟨none⟩) ∧
    (STT.transcribe_audio 50 (.error ())
      (STT.transcribe_audio 0 (.ok ⟨none⟩) ⟨[], ⟨[], [], []⟩⟩
        (List.replicate 600 4)).2.1 (List.replicate 600 4)).2.2 = false :=
  c10_bad_response_sentinel_cached 0 50 ⟨none⟩ (.error ())
    ⟨[], ⟨[], [], []⟩⟩ (List.replicate 600 4)
    (by rw [List.length_replicate]; omega) (by simp) (by simp) rfl rfl
    (by decide) (by decide) (Or.inl rfl) (by decide)

/-! ## Claim C9 -/

theorem mem_enter (active : List String) (reqId : String) :
    reqId ∈ App.enter active reqId := by
  by_cases h : reqId ∈ active
  · simp [App.enter, h]
  · simp [App.enter, h]

theorem removeReq_enter (active : List String) (reqId : String)
    (h : reqId ∉ active) :
    App.removeReq (App.enter active reqId) reqId = active := by
  simp only [App.enter, h, if_false, App.removeReq]
  rw [List.erase_append_right _ h]
  simp

/-- C9 (amended): the active-request record is deleted only on the paths that
reach a deletion site — for `/api/convert` the non-streaming success path and
the early `float(speed)` failure that lands in the outer handler, and for
`/api/transcribe` any path that reaches the thread-pool submission.  Every
validation-failure return, cache-hit return, streaming return, and handled
TTS-error return leaves the record in the map, so a record can outlive its
request. -/
theorem c9_record_deleted_iff (creq : App.ConvertReq)
    (treq : App.TranscribeReq) (reqId : String) (cacheHit : Bool)
    (tts : Except Unit (List Nat)) (stt : Except Unit String)
    (active : List String) (hfresh : reqId ∉ active) :
    (reqId ∉ (App.convert_text creq reqId cacheHit tts active).2 ↔
      (creq.hasData = true ∧
        (creq.speedParses = false ∨
          (creq.text ≠ "" ∧ ¬ (creq.speed < 50 ∨ 200 < creq.speed) ∧
           pyLower creq.voice ∈ ["default", "male", "female"] ∧
           creq.streaming = false ∧ cacheHit = false ∧
           ∃ audio, tts = .ok audio ∧
             ¬ (audio = [] ∨ audio.length < 100))))) ∧
    (reqId ∉ (App.transcribe_route treq reqId stt active).2 ↔
      (treq.hasAudioFile = true ∧ treq.filenameEmpty = false ∧
       treq.data ≠ [] ∧ ¬ treq.data.length < 1000)) := by
  have hmem := mem_enter active reqId
  have hrem := removeReq_enter active reqId hfresh
  constructor
  · cases hd : creq.hasData with
    | false => simp [App.convert_text, hd, hmem]
    | true =>
      cases hsp : creq.speedParses with
      | false => simp [App.convert_text, hd, hsp, hrem, hfresh]
      | true =>
        by_cases htxt : creq.text = ""
        · simp [App.convert_text, hd, hsp, htxt, hmem]
        · by_cases hspd : creq.speed < 50 ∨ 200 < creq.speed
          · simp [App.convert_text, hd, hsp, htxt, hspd, hmem]
          · by_cases hv : pyLower creq.voice ∈ ["default", "male", "female"]
            case neg =>
              simp [App.convert_text, hd, hsp, htxt, hspd, hv, hmem]
            case pos =>
              cases hstr : creq.streaming with
              | true =>
                cases tts with
                | error e =>
                  simp [App.convert_text, hd, hsp, htxt, hspd, hv, hstr, hmem]
                | ok audio =>
                  simp [App.convert_text, hd, hsp, htxt, hspd, hv, hstr, hmem]
              | false =>
                cases hch : cacheHit with
                | true =>
                  simp [App.convert_text, hd, hsp, htxt, hspd, hv, hstr, hch,
                    hmem]
                | false =>
                  cases tts with
                  | error e =>
                    simp [App.convert_text, hd, hsp, htxt, hspd, hv, hstr, hch,
                      hmem]
                  | ok audio =>
                    by_cases hgood : audio = [] ∨ audio.length < 100
                    · simp only [App.convert_text, hd, hsp, htxt, hspd, hv,
                        hstr, hch, hgood]
                      simp [hmem, hgood]
                      tauto
                    · simp only [App.convert_text, hd, hsp, htxt, hspd, hv,
                        hstr, hch, hgood]
                      simp [hrem, hfresh, hgood]
                      push_neg at hgood
                      exact ⟨htxt, hgood.1, hgood.2⟩
  · cases ha : treq.hasAudioFile with
    | false => simp [App.transcribe_route, ha, hmem]
    | true =>
      cases hf : treq.filenameEmpty with
      | true => simp [App.transcribe_route, ha, hf, hmem]
      | false =>
        by_cases hdat : treq.data = []
        · simp [App.transcribe_route, ha, hf, hdat, hmem]
        · by_cases hsmall : treq.data.length < 1000
          · simp [App.transcribe_route, ha, hf, hdat, hsmall, hmem]
          · cases stt with
            | error e =>
              simp [App.transcribe_route, ha, hf, hdat, hsmall, hrem, hfresh]
            | ok t =>
              simp [App.transcribe_route, ha, hf, hdat, hsmall, hrem, hfresh]

/-- Witness for C9's theorem: on the success paths of both handlers the
record is removed. -/
theorem c9_witness :
    "r" ∉ (App.convert_text ⟨true, true, "hi", "default", 100, false⟩ "r"
      false (.ok (List.replicate 100 1)) []).2 ∧
    "r" ∉ (App.transcribe_route ⟨true, false, List.replicate 1000 0⟩ "r"
      (.ok "t") []).2 := by
  constructor
  · exact (c9_record_deleted_iff ⟨true, true, "hi", "default", 100, false⟩
      ⟨true, false, List.replicate 1000 0⟩ "r" false
      (.ok (List.replicate 100 1)) (.ok "t") [] (by simp)).1.mpr
      (by
        refine ⟨rfl, Or.inr ⟨by decide, by decide, by decide, rfl, rfl,
          List.replicate 100 1, rfl, ?_⟩⟩
        decide)
  · exact (c9_record_deleted_iff ⟨true, true, "hi", "default", 100, false⟩
      ⟨true, false, List.replicate 1000 0⟩ "r" false
      (.ok (List.replicate 100 1)) (.ok "t") [] (by simp)).2.mpr
      (by
        refine ⟨rfl, rfl, ?_, ?_⟩
        · decide
        · rw [List.length_replicate]
          omega)

/-- C9 (counterexample): a `/api/convert` request with no JSON body returns
400 while its active-request record is still in the map — the record outlives
the request.  The cache-hit return leaks it too. -/
theorem c9_counterexample :
    "req-1" ∈ (App.convert_text ⟨false, true, "hi", "default", 100, false⟩
      "req-1" false (.error ()) []).2 ∧
    "req-2" ∈ (App.convert_text ⟨true, true, "hi", "default", 100, false⟩
      "req-2" true (.ok (List.replicate 100 1)) []).2 := by
  decide

end Chatbot
